import Mathlib

/-
Verification development for the CDA element finder
(`src/cda_element_finder.py`).

Strings are modelled as `List Char` (`Str`); the XML tree as the inductive
`Node`.  Node *identity* (Python `is` / `==` on `xml.etree` Elements) is
modelled by the node's child-index path from the relevant root, so that two
structurally equal subtrees at different positions stay distinguishable.
Qualified tags use Clark notation exactly as `xml.etree.ElementTree` stores
them: a left brace, the namespace URI, a right brace, then the local name
(the braces are built from character codes 123 and 125).

Python operations are embedded one-for-one:
`str.split(sep)` as `splitOnCh`/`splitOnSubGo`, `in` (substring) as
`strContains`, `str.rsplit(sep, 1)` as `rsplit1Sub`, and the three regular
expressions of the source as the explicit scanners `tidFullMatchAt`,
`tidKeyMatchAt` and `containsMatchAt` (word characters follow Python
`\w` restricted to ASCII, which covers every input the tool handles).
-/

namespace CdaFinder

abbrev Str := List Char

def lbrace : Char := Char.ofNat 123

def rbrace : Char := Char.ofNat 125

def squote : Char := Char.ofNat 39

def dquote : Char := Char.ofNat 34

/-- Python `\w` on ASCII text: letters, digits or underscore. -/
def isWordChar (c : Char) : Bool := c.isAlphanum || c = '_'

/-- Python `sep in s` for a single-character separator. -/
def strHasCh (s : Str) (c : Char) : Bool := s.any (fun a => a = c)

/-- Python `s.split(c)` for a one-character separator: always returns at
least one (possibly empty) segment. -/
def splitOnCh (c : Char) : Str → List Str
  | [] => [[]]
  | x :: xs =>
    let r := splitOnCh c xs
    if x = c then [] :: r
    else (x :: r.headD []) :: r.tail

/-- Python `s.split(sep)` for a multi-character separator `c :: cs`
(non-overlapping, left to right).  `skip` counts separator characters
still to consume after a match, so that scanning resumes exactly after
the separator. -/
def splitOnSubGo (c : Char) (cs : Str) (skip : Nat) (s : Str) : List Str :=
  match skip, s with
  | _, [] => [[]]
  | Nat.succ k, _ :: xs => splitOnSubGo c cs k xs
  | 0, x :: xs =>
    if (c :: cs).isPrefixOf (x :: xs) then
      [] :: splitOnSubGo c cs cs.length xs
    else
      let r := splitOnSubGo c cs 0 xs
      (x :: r.headD []) :: r.tail

/-- Python `sep.join(parts)`. -/
def joinSep (sep : Str) : List Str → Str
  | [] => []
  | [x] => x
  | x :: y :: r => x ++ sep ++ joinSep sep (y :: r)

/-- Python `needle in hay` (substring containment). -/
def strContains (hay needle : Str) : Bool :=
  (List.range (hay.length + 1)).any (fun i => needle.isPrefixOf (hay.drop i))

/-- Python `s.rsplit(sep, 1)` restricted to the case used by the source:
`none` when the separator does not occur, otherwise the text before the
last occurrence paired with the text after it. -/
def rsplit1Sub (c : Char) (cs : Str) (s : Str) : Option (Str × Str) :=
  match splitOnSubGo c cs 0 s with
  | [] => none
  | [_] => none
  | x :: y :: r => some (joinSep (c :: cs) ((x :: y :: r).dropLast), (x :: y :: r).getLastD [])

/-- Python `s.lstrip(c)` for a one-character strip set. -/
def lstripCh (c : Char) : Str → Str
  | [] => []
  | x :: xs => if x = c then lstripCh c xs else x :: xs

/-- Python `s.split(c)[-1]`. -/
def lastSeg (c : Char) (s : Str) : Str := (splitOnCh c s).getLastD s

/-- Python `s.split(c)[0]`. -/
def firstSeg (c : Char) (s : Str) : Str := (splitOnCh c s).headD s

/-! ## The XML tree model -/

/-- An element of the parsed document: qualified tag (Clark notation),
attribute list in document order, optional text content, child list.
Python `element.attrib` is a dict with unique keys; lookups take the
first matching entry. -/
inductive Node where
  | mk (tag : Str) (attrs : List (Str × Str)) (text : Option Str) (children : List Node)

def nodeTag : Node → Str
  | .mk t _ _ _ => t

def nodeAttrs : Node → List (Str × Str)
  | .mk _ a _ _ => a

def nodeText : Node → Option Str
  | .mk _ _ x _ => x

def nodeChildren : Node → List Node
  | .mk _ _ _ cs => cs

/-- Python `element.attrib.get(key)` / `element.get(key)`. -/
def attrGet (attrs : List (Str × Str)) (k : Str) : Option Str :=
  (attrs.find? (fun kv => kv.1 == k)).map (fun kv => kv.2)

/-- The node addressed by a child-index path (node identity). -/
def getAt : Node → List Nat → Option Node
  | n, [] => some n
  | n, i :: p =>
    match (nodeChildren n).get? i with
    | some c => getAt c p
    | none => none

mutual
/-- Child-index paths of every node of the subtree, in pre-order document
order, the root itself (`[]`) first.  This is the order of
`element.iter()`. -/
def preorderPaths : Node → List (List Nat)
  | .mk _ _ _ cs => [] :: preorderPathsList 0 cs
def preorderPathsList : Nat → List Node → List (List Nat)
  | _, [] => []
  | i, c :: cs => (preorderPaths c).map (fun p => i :: p) ++ preorderPathsList (i + 1) cs
end

mutual
/-- Every node of the subtree in pre-order document order, the root first:
Python `element.iter()`. -/
def iterNodes : Node → List Node
  | .mk t a x cs => .mk t a x cs :: iterNodesList cs
def iterNodesList : List Node → List Node
  | [] => []
  | c :: cs => iterNodes c ++ iterNodesList cs
end

/-! ## The `ElementTree.findall` model

`_convert_xpath_for_et` and its callers hand `findall` paths from a small
dialect: `.`-anchored relative steps, `//` descendant steps, and plain or
`prefix:`-qualified tag names.  `etFindall` evaluates exactly that dialect
and returns the matched nodes as child-index paths relative to the queried
node, in the order `findall` produces them.  Everything outside the dialect
(absolute paths, `..`, `*`, predicates, attribute steps, unknown namespace
prefixes) makes the real `findall` raise; those paths are mapped to
`.error`, which callers treat exactly like the raised exception. -/

/-- The namespace prefix table of `CDAElementFinder.__init__`. -/
def nsTable : List (Str × Str) :=
  [("cda".toList, "urn:hl7-org:v3".toList),
   ("xsi".toList, "http://www.w3.org/2001/XMLSchema-instance".toList),
   ("sdtc".toList, "urn:hl7-org:sdtc".toList),
   ("voc".toList, "http://www.lantanagroup.com/voc".toList)]

/-- Clark notation for a namespace-qualified tag. -/
def clark (uri local_ : Str) : Str := lbrace :: uri ++ rbrace :: local_

/-- The tag `findall` compares against for a step: `pfx:rest` is resolved
through the namespace table — ElementTree splits at the *first* colon only
(`tag.split(":", 1)`), an unknown prefix raises (`none`) — and a bare name
is compared verbatim. -/
def resolveStepTag (step : Str) : Option Str :=
  if strHasCh step ':' then
    let pfx := step.takeWhile (fun c => c ≠ ':')
    match attrGet nsTable pfx with
    | some uri => some (clark uri (step.drop (pfx.length + 1)))
    | none => none
  else some step

def tagAt (n : Node) (p : List Nat) : Option Str := (getAt n p).map nodeTag

/-- Paths (one index long) of the direct children carrying `tag`. -/
def childTagPaths (n : Node) (tag : Str) : List (List Nat) :=
  (nodeChildren n).enum.filterMap
    (fun ic => if nodeTag ic.2 == tag then some [ic.1] else none)

/-- Paths of all proper descendants carrying `tag`, pre-order:
the `//` step (`element.iter(tag)` minus the element itself). -/
def descTagPaths (n : Node) (tag : Str) : List (List Nat) :=
  (preorderPaths n).filter (fun q => !q.isEmpty && (tagAt n q == some tag))

/-- One `findall` step applied to a set of paths. -/
def etStep (n : Node) (desc : Bool) (tag : Str) (cur : List (List Nat)) : List (List Nat) :=
  cur.flatMap (fun p =>
    match getAt n p with
    | some m => ((if desc then descTagPaths m tag else childTagPaths m tag)).map (fun q => p ++ q)
    | none => [])

def etSteps (n : Node) : List Str → List (List Nat) → Bool → Except Unit (List (List Nat))
  | [], cur, desc => if desc then .error () else .ok cur
  | t :: ts, cur, desc =>
    if t.isEmpty then
      if desc then .error () else etSteps n ts cur true
    else if t = ['.'] then
      if desc then .error () else etSteps n ts cur false
    else if t = ['.', '.'] || strHasCh t '[' || strHasCh t '@' || strHasCh t '*' then
      .error ()
    else
      match resolveStepTag t with
      | some tag => etSteps n ts (etStep n desc tag cur) false
      | none => .error ()

/-- `element.findall(path, namespaces)` on the supported dialect;
`.error` models the exception raised outside it. -/
def etFindall (n : Node) (path : Str) : Except Unit (List (List Nat)) :=
  match splitOnCh '/' path with
  | [] :: _ => .error ()
  | ts => etSteps n ts [[]] false

/-- `element.find(path, namespaces)`: the first `findall` match, as a path
(`none` both for "no match" and for a raising path, which no caller of the
fixed-literal `find` calls can hit). -/
def etFind (n : Node) (path : Str) : Option (List Nat) :=
  match etFindall n path with
  | .ok (p :: _) => some p
  | _ => none

end CdaFinder

namespace CdaFinder

/-! ## The regular-expression models

The source uses three regex shapes, embedded here as explicit scanners with
Python `re` semantics (leftmost match for `search`, non-overlapping
left-to-right replacement for `sub`):
* `(\w+)\[templateId\[@root=QUOTE([^QUOTES]+)QUOTE\]\]` — `tidFullMatchAt`
  (anchored), `tidSearch` (`re.search`), `tidSubAll` (`re.sub`),
  `tidFullSearchRest` (the `(.*)$` tail group of `_get_relative_xpath`);
* `templateId\[@root=QUOTE([^QUOTES]+)QUOTE` — `tidKeySearch`
  (`auto_group_xpath_entries`);
* `\[contains\([^)]+\)\]` — `containsMatchAt` / `stripContains`
  (the predicate-stripping `re.sub`). -/

def rootPredLit : Str := "templateId[@root=".toList

def isQuote (c : Char) : Bool := c = squote || c = dquote

/-- A quote, one or more non-quote characters, a quote; returns the body
and the remainder after the closing quote. -/
def matchQuoted (s : Str) : Option (Str × Str) :=
  match s with
  | [] => none
  | q :: rest =>
    if isQuote q then
      let body := rest.takeWhile (fun c => !isQuote c)
      if body.isEmpty then none
      else
        match rest.drop body.length with
        | q2 :: rest2 => if isQuote q2 then some (body, rest2) else none
        | [] => none
    else none

/-- Anchored match of `(\w+)\[templateId\[@root=...\]\]`:
element name, template identifier, remainder after the match. -/
def tidFullMatchAt (s : Str) : Option (Str × Str × Str) :=
  let name := s.takeWhile isWordChar
  if name.isEmpty then none
  else
    let s1 := s.drop name.length
    if ('[' :: rootPredLit).isPrefixOf s1 then
      match matchQuoted (s1.drop (rootPredLit.length + 1)) with
      | some (body, rest) =>
        if "]]".toList.isPrefixOf rest then some (name, body, rest.drop 2) else none
      | none => none
    else none

/-- `re.search` of the full pattern: element name and identifier of the
leftmost match. -/
def tidSearch : Str → Option (Str × Str)
  | [] => none
  | x :: xs =>
    match tidFullMatchAt (x :: xs) with
    | some (n, i, _) => some (n, i)
    | none => tidSearch xs

/-- Remainder after the leftmost full match (the `(.*)$` group of
`_get_relative_xpath`). -/
def tidFullSearchRest : Str → Option Str
  | [] => none
  | x :: xs =>
    match tidFullMatchAt (x :: xs) with
    | some (_, _, rest) => some rest
    | none => tidFullSearchRest xs

/-- `re.sub` of the full pattern.  `skip` counts characters of an already
consumed match still to pass over, so replacement resumes exactly after
each match, as `re.sub` does. -/
def tidSubGo (repl : Str) (skip : Nat) (s : Str) : Str :=
  match skip, s with
  | _, [] => []
  | Nat.succ k, _ :: xs => tidSubGo repl k xs
  | 0, x :: xs =>
    match tidFullMatchAt (x :: xs) with
    | some (_, _, rest) => repl ++ tidSubGo repl (xs.length - rest.length) xs
    | none => x :: tidSubGo repl 0 xs

def tidSubAll (repl s : Str) : Str := tidSubGo repl 0 s

/-- Anchored match of the key pattern of `auto_group_xpath_entries`
(no closing `]]` required): the captured identifier. -/
def tidKeyMatchAt (s : Str) : Option Str :=
  if rootPredLit.isPrefixOf s then
    (matchQuoted (s.drop rootPredLit.length)).map (fun br => br.1)
  else none

/-- `re.search` of the key pattern. -/
def tidKeySearch : Str → Option Str
  | [] => none
  | x :: xs =>
    match tidKeyMatchAt (x :: xs) with
    | some i => some i
    | none => tidKeySearch xs

def containsOpenLit : Str := "[contains(".toList

/-- Anchored match of `\[contains\([^)]+\)\]`: remainder after the match. -/
def containsMatchAt (s : Str) : Option Str :=
  if containsOpenLit.isPrefixOf s then
    let s1 := s.drop containsOpenLit.length
    let body := s1.takeWhile (fun c => c ≠ ')')
    if body.isEmpty then none
    else if ")]".toList.isPrefixOf (s1.drop body.length) then
      some ((s1.drop body.length).drop 2)
    else none
  else none

/-- `re.sub(r'\[contains\([^)]+\)\]', '', s)`, same skip technique as
`tidSubGo`. -/
def stripContainsGo (skip : Nat) (s : Str) : Str :=
  match skip, s with
  | _, [] => []
  | Nat.succ k, _ :: xs => stripContainsGo k xs
  | 0, x :: xs =>
    match containsMatchAt (x :: xs) with
    | some rest => stripContainsGo (xs.length - rest.length) xs
    | none => x :: stripContainsGo 0 xs

def stripContains (s : Str) : Str := stripContainsGo 0 s

/-! ## The Expression Converter (`_convert_xpath_for_et`) -/

/-- The instance fields `_current_templateid` / `_current_element_type`
that `_convert_xpath_for_et` assigns and `_has_templateid_predicate` /
`_find_elements_with_templateid` read.  Before the first conversion the
attributes do not exist (`hasattr` is false), modelled by
`ConvState.mk none none`. -/
structure ConvState where
  currentTemplateId : Option Str
  currentElementType : Option Str

/-- The controlled vocabulary of `_convert_xpath_for_et` (lines 274-284). -/
def cdaElements : List Str :=
  ["ClinicalDocument", "recordTarget", "patientRole", "patient",
   "encompassingEncounter", "observation", "organizer", "entry",
   "section", "component", "act", "substanceAdministration", "name",
   "given", "family", "addr", "city", "state", "telecom", "effectiveTime",
   "title", "id", "administrativeGenderCode", "birthTime", "raceCode",
   "low", "high", "methodCode", "author", "time", "value", "templateId",
   "country", "postalCode", "county", "streetAddressLine", "componentOf",
   "location", "healthCareFacility", "serviceProviderOrganization", "statusCode",
   "code", "displayName", "codeSystemName", "procedure", "participant",
   "participantRole"].map String.toList

/-- The "commonly repeating" elements promoted to a document-wide search
(line 356). -/
def cdaSearchElements : List Str :=
  ["observation", "act", "organizer", "substanceAdministration", "encounter",
   "procedure"].map String.toList

/-- One iteration of the `for i, part in enumerate(path_parts)` loop of
`_convert_xpath_for_et`: the (zero or one) segments appended for `part`. -/
def convertPartStep (pathParts : List Str) (i : Nat) (part : Str) : List Str :=
  if part.isEmpty then [[]]
  else if i = 0 && part = "ClinicalDocument".toList then []
  else if i = 1 && pathParts.headD [] = "ClinicalDocument".toList then
    if strHasCh part '@' then [part]
    else if strHasCh part '[' then
      let en := firstSeg '[' part
      if cdaElements.contains en then ["./cda:".toList ++ en ++ part.drop en.length]
      else ["./".toList ++ part]
    else
      if cdaElements.contains part then ["./cda:".toList ++ part]
      else ["./".toList ++ part]
  else if strHasCh part '@' then [part]
  else if strHasCh part '[' then
    let en := firstSeg '[' part
    if cdaElements.contains en && !("cda:".toList.isPrefixOf en) then
      ["cda:".toList ++ en ++ part.drop en.length]
    else [part]
  else
    if cdaElements.contains part && !("cda:".toList.isPrefixOf part) then
      ["cda:".toList ++ part]
    else [part]

/-- `_convert_xpath_for_et` (lines 262-363).  The returned `ConvState` is
the assignment the call performs on the instance fields; the incoming
state is never read — the source assigns both fields unconditionally
(either from the match or to `None`) before any use. -/
def convertXpathForET (_prev : ConvState) (xpath : Str) : Str × ConvState :=
  let stepA :=
    match tidSearch xpath with
    | some ni => (tidSubAll ni.1 xpath, ConvState.mk (some ni.2) (some ni.1))
    | none => (xpath, ConvState.mk none none)
  let pathParts := splitOnCh '/' stepA.1
  let processed := (pathParts.enum).foldl
    (fun acc ip => acc ++ convertPartStep pathParts ip.1 ip.2) []
  let c2 := joinSep ['/'] processed
  let c3 := if "/@".toList.isPrefixOf c2 then '.' :: c2 else c2
  let c4 :=
    if cdaSearchElements.any
        (fun e => e.isPrefixOf c3 || ("cda:".toList ++ e).isPrefixOf c3) then
      ".//".toList ++ c3
    else c3
  (stripContains c4, stepA.2)

/-- `_has_templateid_predicate` (lines 389-392): true exactly when a
template identifier was captured by the most recent conversion. -/
def hasTemplateidPredicate (st : ConvState) (_xpath : Str) : Bool :=
  st.currentTemplateId.isSome

/-! ## Relative conversion and field naming -/

/-- The vocabulary of `_convert_relative_xpath` (lines 990-995). -/
def cdaRelElements : List Str :=
  ["code", "value", "text", "statusCode", "methodCode", "effectiveTime",
   "low", "high", "author", "time", "entryRelationship", "observation",
   "organizer", "component", "section", "entry", "act",
   "substanceAdministration", "participant", "participantRole", "id",
   "templateId", "procedure"].map String.toList

/-- `_convert_relative_xpath` (lines 984-1026). -/
def convertRelativeXpath (xpath : Str) : Str :=
  if xpath.isEmpty then ['.']
  else
    let parts := splitOnCh '/' xpath
    let convertedParts := parts.foldl
      (fun acc part =>
        if part.isEmpty then acc
        else if "@".toList.isPrefixOf part then acc ++ [part]
        else
          let en := firstSeg '[' part
          let pred := if strHasCh part '[' then part.drop en.length else []
          if cdaRelElements.contains en && !("cda:".toList.isPrefixOf en) then
            acc ++ ["cda:".toList ++ en ++ pred]
          else acc ++ [part]) []
    let result :=
      if convertedParts.isEmpty then ['.']
      else ".//".toList ++ joinSep ['/'] convertedParts
    if !((".".toList).isPrefixOf xpath) && convertedParts.length = 1 then
      "./".toList ++ joinSep ['/'] convertedParts
    else result

/-- `_get_relative_xpath` (lines 768-778): everything after the leftmost
template predicate, leading slashes stripped; the whole expression when no
predicate occurs. -/
def getRelativeXpath (xpath : Str) : Str :=
  match tidFullSearchRest xpath with
  | some rest => lstripCh '/' rest
  | none => xpath

/-- The generic container names skipped by `_extract_field_name`. -/
def genericNames : List Str := ["observation", "organizer", "act"].map String.toList

/-- The reversed-traversal accumulation of "meaningful" segments in
`_extract_field_name` (`insert(0, ...)` with a break at two collected
segments); `partsRev` is the segment list already reversed. -/
def meaningfulGo : List Str → List Str → List Str
  | [], acc => acc
  | part :: restRev, acc =>
    if !part.isEmpty && !("templateId".toList.isPrefixOf part) then
      let clean := lastSeg ':' (firstSeg '[' part)
      let acc2 := if genericNames.contains clean then acc else clean :: acc
      if 2 ≤ acc2.length then acc2 else meaningfulGo restRev acc2
    else meaningfulGo restRev acc

/-- `_extract_field_name` (lines 1028-1081).  `split('/@')[0]` /
`split('/@')[-1]` take the first and last segments of the full split.  The
final `return "unknown_field"` of the source is unreachable
(`split` never returns an empty list) and has no counterpart here. -/
def extractFieldName (xpath : Str) : Str :=
  if strContains xpath "/@".toList then
    let segs := splitOnSubGo '/' ['@'] 0 xpath
    let attrName := segs.getLastD []
    let elementPart := segs.headD []
    if strHasCh elementPart '/' then
      let pathParts := splitOnCh '/' elementPart
      let meaningful := meaningfulGo pathParts.reverse []
      if !meaningful.isEmpty then joinSep ['/'] meaningful ++ '/' :: attrName
      else lastSeg ':' (firstSeg '[' (pathParts.getLastD [])) ++ '_' :: attrName
    else attrName
  else
    let parts := splitOnCh '/' xpath
    let meaningful := meaningfulGo parts.reverse []
    if !meaningful.isEmpty then joinSep ['/'] meaningful
    else lastSeg ':' (firstSeg '[' (parts.getLastD []))

end CdaFinder

namespace CdaFinder

/-! ## Parent access under `xml.etree`

Several methods probe `current.getparent() if hasattr(current, 'getparent')
else None`.  `getparent` is an lxml API; `xml.etree.ElementTree.Element`
(the parser this tool imports) has no such attribute, so the probe always
produces `None`. -/

/-- `current.getparent() if hasattr(current, 'getparent') else None`
under `xml.etree.ElementTree`: constantly `None`. -/
def etGetparent (_e : Node) : Option Node := none

/-- Python `tag.split(rbrace)[1] if rbrace in tag else tag`
(namespace stripping in `_get_element_path`). -/
def stripNs (tag : Str) : Str :=
  if strHasCh tag rbrace then (splitOnCh rbrace tag).getD 1 [] else tag

/-- `_get_element_path` (lines 582-594).  The loop prepends the stripped
tag of `current` and then replaces `current` by `etGetparent current`;
since that is constantly `none`, the loop body runs exactly once and the
result is a single segment: a slash followed by the element's own
namespace-stripped tag. -/
def getElementPath (element : Node) : Str :=
  match etGetparent element with
  | some _ => []
  | none => '/' :: stripNs (nodeTag element)

/-- `_is_from_nested_template` (lines 960-982).  The `while` loop either
is skipped (`element` is the template root) or computes
`parent = etGetparent current = None` on its first iteration and hits
`if parent is None: break`; every path returns `False`. -/
def isFromNestedTemplate (element _templateRoot : Node) (_targetTemplateId : Str) : Bool :=
  match etGetparent element with
  | some _ => false
  | none => false

/-- `_has_different_template_ancestor` (lines 921-936).  On the first
iteration `current` is `element` itself and the `current != element` guard
blocks the `return True`; then `current = etGetparent current = None` ends
the loop.  Every path returns `False`. -/
def hasDifferentTemplateAncestor (element _templateRoot : Node) : Bool :=
  match etGetparent element with
  | some _ => false
  | none => false

/-! ## The Tree Matcher (`_find_elements_by_xpath` and helpers) -/

/-- A match produced by the matching step: a plain element or an
`(element, attribute_name, attribute_value)` tuple. -/
inductive Found where
  | elem (node : Node)
  | attrRes (node : Node) (name : Str) (value : Str)

def cdaTemplateIdTag : Str := clark "urn:hl7-org:v3".toList "templateId".toList

/-- `elem.findall('./cda:templateId', ...)`: the direct template-identifier
marker children. -/
def tidChildren (n : Node) : List Node :=
  (nodeChildren n).filter (fun c => nodeTag c == cdaTemplateIdTag)

/-- `elem.find('./cda:NAME', ...)` for a fixed local name: first direct
child with that qualified tag. -/
def findFirstChild (n : Node) (local_ : Str) : Option Node :=
  (nodeChildren n).find? (fun c => nodeTag c == clark "urn:hl7-org:v3".toList local_)

/-- The keep test of `_find_elements_recursive` (line 573):
`child.tag.endswith(clean_part) or clean_part in child.tag` — against the
full qualified tag, namespace text included. -/
def recKeep (cleanPart : Str) (childTag : Str) : Bool :=
  cleanPart.isSuffixOf childTag || strContains childTag cleanPart

/-- The per-step loop of `_find_elements_recursive`: consume path parts,
at each one keeping the children passing `recKeep`; an empty level breaks
out and yields the empty result. -/
def recGo : List Node → List Str → List Node
  | cur, [] => cur
  | cur, part :: rest =>
    if part.isEmpty then recGo cur rest
    else
      let clean := firstSeg '[' (lastSeg ':' part)
      let nxt := cur.flatMap (fun e => (nodeChildren e).filter (fun c => recKeep clean (nodeTag c)))
      if nxt.isEmpty then nxt else recGo nxt rest

/-- `_find_elements_recursive` (lines 553-580). -/
def findElementsRecursive (root : Node) (xpath : Str) : List Node :=
  recGo [root] (splitOnCh '/' xpath)

/-- `_find_elements_with_attributes` (lines 530-551): split at the last
`/@`, find the element sub-path (falling back to the recursive walk when
`findall` raises, not when it is merely empty), keep the elements carrying
the attribute as tuples. -/
def findElementsWithAttributes (root : Node) (xpath : Str) : List Found :=
  match rsplit1Sub '/' ['@'] xpath with
  | none => []
  | some ea =>
    let elements :=
      match etFindall root ea.1 with
      | .ok ps => ps.filterMap (getAt root)
      | .error _ => findElementsRecursive root ea.1
    elements.filterMap (fun e =>
      (attrGet (nodeAttrs e) ea.2).map (fun v => Found.attrRes e ea.2 v))

/-- The `/value` sub-branch of `_find_elements_with_templateid`
(lines 433-457), with its `_is_from_nested_template` filter. -/
def tidValueBranch (xpath : Str) (matching : List Node) (target : Str) : List Found :=
  if "/@value".toList.isSuffixOf xpath then
    matching.filterMap (fun e =>
      match findFirstChild e "value".toList with
      | some v =>
        match attrGet (nodeAttrs v) "value".toList with
        | some a =>
          if !isFromNestedTemplate v e target then some (Found.attrRes v "value".toList a)
          else none
        | none => none
      | none => none)
  else if "/@code".toList.isSuffixOf xpath then
    matching.filterMap (fun e =>
      match findFirstChild e "value".toList with
      | some v =>
        match attrGet (nodeAttrs v) "code".toList with
        | some a =>
          if !isFromNestedTemplate v e target then some (Found.attrRes v "code".toList a)
          else none
        | none => none
      | none => none)
  else if "/value".toList.isSuffixOf xpath then
    matching.filterMap (fun e =>
      match findFirstChild e "value".toList with
      | some v =>
        if !isFromNestedTemplate v e target then some (Found.elem v) else none
      | none => none)
  else []

/-- A branch keyed on a single direct child: attribute result when the
converted path ends with the given attribute marker, element result
otherwise (the `/statusCode` and `/methodCode` branches). -/
def tidChildAttrBranch (xpath : Str) (matching : List Node) (child attrSuffix attrName : Str) :
    List Found :=
  if attrSuffix.isSuffixOf xpath then
    matching.filterMap (fun e =>
      match findFirstChild e child with
      | some c => (attrGet (nodeAttrs c) attrName).map (fun a => Found.attrRes c attrName a)
      | none => none)
  else
    matching.filterMap (fun e => (findFirstChild e child).map Found.elem)

/-- A branch keyed on a grandchild (`/effectiveTime/low` and
`/author/time`). -/
def tidGrandChildBranch (xpath : Str) (matching : List Node) (child grand : Str) : List Found :=
  if "/@value".toList.isSuffixOf xpath then
    matching.filterMap (fun e =>
      match findFirstChild e child with
      | some c =>
        match findFirstChild c grand with
        | some g => (attrGet (nodeAttrs g) "value".toList).map
            (fun a => Found.attrRes g "value".toList a)
        | none => none
      | none => none)
  else
    matching.filterMap (fun e =>
      match findFirstChild e child with
      | some c => (findFirstChild c grand).map Found.elem
      | none => none)

/-- `_find_elements_with_templateid` (lines 394-528).  The one `findall`
on `.//cda:ELEMENT_TYPE` is not wrapped in a `try`, so a raising path
propagates (`.error`); with the element types the conversion regex can
capture (`\w+` runs) it never raises.  The dispatch keys are substring
tests on the already converted path. -/
def findElementsWithTemplateid (st : ConvState) (root : Node) (xpath : Str) :
    Except Unit (List Found) :=
  let target := st.currentTemplateId.getD []
  let ety := st.currentElementType.getD []
  if target.isEmpty || ety.isEmpty then .ok []
  else
    match etFindall root (".//cda:".toList ++ ety) with
    | .error _ => .error ()
    | .ok ps =>
      let all := ps.filterMap (getAt root)
      let matching := all.filter (fun e =>
        (tidChildren e).any (fun t => attrGet (nodeAttrs t) "root".toList == some target))
      if strContains xpath "/code".toList then
        .ok (if "/@code".toList.isSuffixOf xpath then
          matching.filterMap (fun e =>
            match findFirstChild e "code".toList with
            | some c => (attrGet (nodeAttrs c) "code".toList).map
                (fun a => Found.attrRes c "code".toList a)
            | none => none)
        else if "/code".toList.isSuffixOf xpath then
          matching.filterMap (fun e => (findFirstChild e "code".toList).map Found.elem)
        else [])
      else if strContains xpath "/value".toList then
        .ok (tidValueBranch xpath matching target)
      else if strContains xpath "/text".toList then
        .ok (matching.filterMap (fun e => (findFirstChild e "text".toList).map Found.elem))
      else if strContains xpath "/statusCode".toList then
        .ok (tidChildAttrBranch xpath matching "statusCode".toList "/@code".toList "code".toList)
      else if strContains xpath "/methodCode".toList
          || strContains xpath "/cda:methodCode".toList then
        .ok (tidChildAttrBranch xpath matching "methodCode".toList "/@code".toList "code".toList)
      else if strContains xpath "/effectiveTime/low".toList
          || strContains xpath "/cda:effectiveTime/cda:low".toList then
        .ok (tidGrandChildBranch xpath matching "effectiveTime".toList "low".toList)
      else if strContains xpath "/author/time".toList
          || strContains xpath "/cda:author/cda:time".toList then
        .ok (tidGrandChildBranch xpath matching "author".toList "time".toList)
      else
        .ok (matching.map Found.elem)

/-- `_find_elements_by_xpath` (lines 365-387): direct `findall` first
(its exceptions swallowed), then — only when that produced nothing — the
stored-template branch, else the attribute split when the path mentions an
attribute, else the recursive fallback. -/
def findElementsByXPath (st : ConvState) (root : Node) (xpath : Str) :
    Except Unit (List Found) :=
  match etFindall root xpath with
  | .ok (p :: ps) => .ok (((p :: ps).filterMap (getAt root)).map Found.elem)
  | _ =>
    if hasTemplateidPredicate st xpath then
      findElementsWithTemplateid st root xpath
    else if "/@value".toList.isSuffixOf xpath || strHasCh xpath '@' then
      .ok (findElementsWithAttributes root xpath)
    else
      .ok ((findElementsRecursive root xpath).map Found.elem)

/-! ## Flat-mode records (`find_elements`) -/

/-- A catalog entry as `find_elements` consumes it: the expression plus the
optional metadata fields read through `entry.get(..., '')`. -/
structure Entry where
  xpath : Str
  sectionMeta : Str
  dataElement : Str
  templateMeta : Str
  cardinality : Str

/-- One flat-mode result record.  `elementText` holds the Python *value*
of the `element_text` key (which may be `None`); `isAttribute` models the
*presence* of the `is_attribute` key: the not-found record of lines
236-248 does not set it, which is modelled by `none`. -/
structure FlatRecord where
  originalXpath : Str
  convertedXpath : Str
  sectionMeta : Str
  dataElement : Str
  templateMeta : Str
  cardinality : Str
  elementTag : Option Str
  elementText : Option Str
  elementAttributes : List (Str × Str)
  elementPath : Option Str
  found : Bool
  isAttribute : Option Bool

/-- The `f"@{attr_name}={attr_value}"` display text. -/
def atText (a v : Str) : Str := '@' :: a ++ '=' :: v

/-- The not-found record (lines 236-248): `found` is `False` and the
`is_attribute` key is absent. -/
def notFoundRecord (e : Entry) (conv : Str) : FlatRecord :=
  ⟨e.xpath, conv, e.sectionMeta, e.dataElement, e.templateMeta, e.cardinality,
   none, none, [], none, false, none⟩

/-- The per-match records (lines 200-233). -/
def recordOf (e : Entry) (conv : Str) : Found → FlatRecord
  | .elem n =>
    ⟨e.xpath, conv, e.sectionMeta, e.dataElement, e.templateMeta, e.cardinality,
     some (nodeTag n), nodeText n, nodeAttrs n, some (getElementPath n), true, some false⟩
  | .attrRes n a v =>
    ⟨e.xpath, conv, e.sectionMeta, e.dataElement, e.templateMeta, e.cardinality,
     some (nodeTag n), some (atText a v), nodeAttrs n,
     some (getElementPath n ++ "/@".toList ++ a), true, some true⟩

/-- The body of the per-expression loop of `find_elements` (lines
188-253): convert (assigning the shared state), match, then build either
one record per match, or the single not-found record, or — when the
matching step raised — no record at all (`except ... continue`). -/
def processEntry (root : Node) (st : ConvState) (e : Entry) : List FlatRecord × ConvState :=
  let cs := convertXpathForET st e.xpath
  match findElementsByXPath cs.2 root cs.1 with
  | .error _ => ([], cs.2)
  | .ok [] => ([notFoundRecord e cs.1], cs.2)
  | .ok (i :: is) => ((i :: is).map (recordOf e cs.1), cs.2)

/-- `find_elements` (lines 167-255) after the up-front parse: the
per-expression loop threading the converter's instance state. -/
def findElements (root : Node) (entries : List Entry) : List FlatRecord :=
  (entries.foldl
    (fun acc e =>
      let rs := processEntry root acc.2 e
      (acc.1 ++ rs.1, rs.2))
    (([], ⟨none, none⟩) : List FlatRecord × ConvState)).1

end CdaFinder

namespace CdaFinder

/-! ## The Scope Boundary Resolver and the Instance Grouper -/

/-- Whether the node at `q` (relative to `root`) has at least one direct
template-identifier marker child (`if template_ids:`). -/
def hasTidChildAt (root : Node) (q : List Nat) : Bool :=
  match getAt root q with
  | some d => !(tidChildren d).isEmpty
  | none => false

/-- Absolute paths of every node of the subtree rooted at `q`
(`nested_template.iter()` with identities made absolute). -/
def subtreeAbsPaths (root : Node) (q : List Nat) : List (List Nat) :=
  match getAt root q with
  | some d => (preorderPaths d).map (fun r => q ++ r)
  | none => []

/-- `_is_nested_template_element` (lines 938-958): collect every proper
descendant of the template root carrying a direct template-identifier
marker child — the marker's *value* is never inspected — then report
whether the candidate (identified by its path) lies inside any of those
subtrees, the collected descendant itself included. -/
def isNestedTemplateElement (templateRoot : Node) (elementPath : List Nat) : Bool :=
  let nestedTemplates := (preorderPaths templateRoot).filter
    (fun q => !q.isEmpty && hasTidChildAt templateRoot q)
  nestedTemplates.any (fun q =>
    (subtreeAbsPaths templateRoot q).any (fun r => r == elementPath))

/-- One entry of an instance's field-value list. `attributeName` /
`attributeValue` model the presence of the homonymous keys (set only for
attribute matches). -/
structure FieldItem where
  text : Option Str
  attributes : List (Str × Str)
  tag : Str
  attributeName : Option Str
  attributeValue : Option Str
deriving DecidableEq

def hcxElemItem (n : Node) : FieldItem := ⟨nodeText n, nodeAttrs n, nodeTag n, none, none⟩

def hcxAttrItem (a v : Str) (n : Node) : FieldItem :=
  ⟨some (atText a v), [(a, v)], nodeTag n, some a, some v⟩

/-- Exception-propagating concatenation: a raising `findall` inside the
per-level loop aborts `_handle_complex_xpath_with_templateid` as a whole. -/
def exceptFlat {α : Type} : List (Except Unit (List α)) → Except Unit (List α)
  | [] => .ok []
  | x :: xs =>
    match x, exceptFlat xs with
    | .ok l, .ok r => .ok (l ++ r)
    | _, _ => .error ()

/-- The per-part loop of `_handle_complex_xpath_with_templateid` (lines
851-918).  The `candidate != template_elem and
_has_different_template_ancestor(...)` skip test never skips because
`hasDifferentTemplateAncestor` is constantly false; it is therefore not
repeated here.  An attribute part is terminal; an empty next level breaks
out, and the surviving nodes become element items. -/
def hcxGo (R : Node) : List Str → List (List Nat) → Except Unit (List FieldItem)
  | [], cur => .ok (cur.filterMap (fun p => (getAt R p).map hcxElemItem))
  | part :: rest, cur =>
    if part.isEmpty then hcxGo R rest cur
    else
      match tidSearch part with
      | some ni =>
        match exceptFlat (cur.map (fun p =>
          match getAt R p with
          | some m =>
            match etFindall m (".//cda:".toList ++ ni.1) with
            | .ok cps => .ok ((cps.filter (fun c =>
                match getAt m c with
                | some cand => (tidChildren cand).any
                    (fun t => attrGet (nodeAttrs t) "root".toList == some ni.2)
                | none => false)).map (fun c => p ++ c))
            | .error _ => .error ()
          | none => .ok [])) with
        | .error _ => .error ()
        | .ok nxt => if nxt.isEmpty then .ok [] else hcxGo R rest nxt
      | none =>
        if "@".toList.isPrefixOf part then
          .ok (cur.filterMap (fun p =>
            match getAt R p with
            | some m => (attrGet (nodeAttrs m) (part.drop 1)).map
                (fun v => hcxAttrItem (part.drop 1) v m)
            | none => none))
        else
          match exceptFlat (cur.map (fun p =>
            match getAt R p with
            | some m =>
              match etFindall m (".//cda:".toList ++ part) with
              | .ok cps => .ok (cps.map (fun c => p ++ c))
              | .error _ => .error ()
            | none => .ok [])) with
          | .error _ => .error ()
          | .ok nxt => if nxt.isEmpty then .ok [] else hcxGo R rest nxt

/-- `_handle_complex_xpath_with_templateid` (lines 841-919). -/
def handleComplexXpath (R : Node) (xpath : Str) : Except Unit (List FieldItem) :=
  hcxGo R (splitOnCh '/' xpath) [[]]

/-- `_find_within_template_instance` (lines 780-839).  A raising `findall`
(or a raise inside the complex handler) is caught at lines 836-838 with no
item appended yet, so it yields the empty list. -/
def findWithinTemplateInstance (R : Node) (relXpath : Str) : List FieldItem :=
  if relXpath.isEmpty then [⟨nodeText R, nodeAttrs R, nodeTag R, none, none⟩]
  else if strContains relXpath "templateId[@root=".toList then
    match handleComplexXpath R relXpath with
    | .ok items => items
    | .error _ => []
  else
    let conv := convertRelativeXpath relXpath
    match rsplit1Sub '/' ['@'] conv with
    | some ea =>
      let ps :=
        if ea.1.isEmpty then [([] : List Nat)]
        else
          match etFindall R ea.1 with
          | .ok l => l
          | .error _ => []
      ps.filterMap (fun p =>
        if isNestedTemplateElement R p then none
        else
          match getAt R p with
          | some e => (attrGet (nodeAttrs e) ea.2).map (fun v => hcxAttrItem ea.2 v e)
          | none => none)
    | none =>
      let ps :=
        match etFindall R conv with
        | .ok l => l
        | .error _ => []
      ps.filterMap (fun p =>
        if isNestedTemplateElement R p then none
        else (getAt R p).map hcxElemItem)

/-! ## The Template Locator and grouped output -/

/-- `_find_template_instances` (lines 754-766): every node of the document
(pre-order `root.iter()`, the root included) with a direct
template-identifier marker child whose `root` attribute equals the target. -/
def findTemplateInstances (root : Node) (templateId : Str) : List Node :=
  (iterNodes root).filter (fun e =>
    (tidChildren e).any (fun t => attrGet (nodeAttrs t) "root".toList == some templateId))

/-- Python dict assignment `d[k] = v`: replace in place when the key
exists (insertion order kept), append otherwise. -/
def dictInsert (m : List (Str × List FieldItem)) (k : Str) (v : List FieldItem) :
    List (Str × List FieldItem) :=
  if m.any (fun kv => kv.1 == k) then
    m.map (fun kv => if kv.1 == k then (k, v) else kv)
  else m ++ [(k, v)]

/-- The inner expression loop of `find_grouped_elements` (lines 702-718):
the `fields` dict of one template occurrence. -/
def instanceFields (R : Node) (entries : List Entry) : List (Str × List FieldItem) :=
  entries.foldl
    (fun acc e =>
      let res := findWithinTemplateInstance R (getRelativeXpath e.xpath)
      if res.isEmpty then acc else dictInsert acc (extractFieldName e.xpath) res)
    []

/-- One reported template occurrence. -/
structure InstanceData where
  instanceNumber : Nat
  templateId : Str
  fields : List (Str × List FieldItem)
  xpathExpressions : List Str
deriving DecidableEq

/-- The `for i, template_elem in enumerate(template_elements)` loop of
`find_grouped_elements` (lines 693-722): `instance_number` is `i + 1`
over *all* located occurrences, and an occurrence whose fields dict stays
empty is dropped after numbering. -/
def buildInstancesGo (tid : Str) (entries : List Entry) : Nat → List Node → List InstanceData
  | _, [] => []
  | i, r :: rest =>
    let fs := instanceFields r entries
    let tl := buildInstancesGo tid entries (i + 1) rest
    if fs.isEmpty then tl
    else ⟨i + 1, tid, fs, entries.map (fun e => e.xpath)⟩ :: tl

/-- The fixed identifier → description table (lines 725-737). -/
def templateDescriptions : List (Str × Str) :=
  [("2.16.840.1.113883.10.20.22.4.2", "Problem Observation"),
   ("2.16.840.1.113883.10.20.22.4.27", "Vital Signs Observation"),
   ("2.16.840.1.113883.10.20.22.4.7", "Allergy Observation"),
   ("2.16.840.1.113883.10.20.22.4.13", "Medication Activity"),
   ("2.16.840.1.113883.10.20.22.4.44", "Lab Result Observation"),
   ("2.16.840.1.113883.10.20.22.4.14", "Medication Supply Order"),
   ("2.16.840.1.113883.10.20.22.4.16", "Medication Dispense"),
   ("2.16.840.1.113883.10.20.22.4.19", "Medication Order"),
   ("2.16.840.1.113883.10.20.22.4.49", "Pregnancy Observation"),
   ("2.16.840.1.113883.10.20.22.4.78", "Smoking Status Observation"),
   ("2.16.840.1.113883.10.20.22.4.280", "Gestational Age Observation")].map
    (fun kv => (kv.1.toList, kv.2.toList))

/-- `template_descriptions.get(tid, f"Template {tid}" if tid else "Ungrouped")`. -/
def describeTemplate (tid : Str) : Str :=
  match attrGet templateDescriptions tid with
  | some d => d
  | none => if tid.isEmpty then "Ungrouped".toList else "Template ".toList ++ tid

/-- One grouped-mode result record. -/
structure GroupResult where
  templateId : Str
  templateDescription : Str
  xpathExpressions : List Str
  instanceCount : Nat
  instances : List InstanceData
deriving DecidableEq

/-- `find_grouped_elements` (lines 661-747) after the up-front parse.
Occurrences are located only for a truthy identifier other than
`"ungrouped"`; `instance_count` is computed from the post-drop instance
list. -/
def findGroupedElements (root : Node) (entries : List Entry) (tid : Str) : GroupResult :=
  let located :=
    if !tid.isEmpty && tid ≠ "ungrouped".toList then findTemplateInstances root tid
    else []
  let insts := buildInstancesGo tid entries 0 located
  ⟨tid, describeTemplate tid, entries.map (fun e => e.xpath), insts.length, insts⟩

/-- Python dict-of-lists accumulation `groups[tid].append(entry)`. -/
def agInsert (gs : List (Str × List Entry)) (k : Str) (e : Entry) : List (Str × List Entry) :=
  if gs.any (fun kv => kv.1 == k) then
    gs.map (fun kv => if kv.1 == k then (kv.1, kv.2 ++ [e]) else kv)
  else gs ++ [(k, [e])]

/-- `auto_group_xpath_entries` (lines 623-659): key each entry by the
identifier its expression's template predicate mentions (the `ungrouped`
bucket, when non-empty, goes last).  The `xpath_expressions` note the
source adds to each copied entry dict is metadata no later step reads and
is not modelled. -/
def autoGroupXpathEntries (entries : List Entry) : List (Str × List Entry) :=
  let acc := entries.foldl
    (fun acc e =>
      match tidKeySearch e.xpath with
      | some t => (agInsert acc.1 t e, acc.2)
      | none => (acc.1, acc.2 ++ [e]))
    (([], []) : List (Str × List Entry) × List Entry)
  if acc.2.isEmpty then acc.1 else acc.1 ++ [("ungrouped".toList, acc.2)]

/-- `find_elements_with_auto_grouping` (lines 596-621): the flat results
computed first are discarded (their only effect is on the shared converter
state, which every later conversion overwrites); each group is evaluated
and appended only when it has at least one surviving instance. -/
def findElementsWithAutoGrouping (root : Node) (entries : List Entry) : List GroupResult :=
  (autoGroupXpathEntries entries).foldl
    (fun acc g =>
      let r := findGroupedElements root g.2 g.1
      if r.instances.isEmpty then acc else acc ++ [r])
    []

end CdaFinder

namespace CdaFinder

/-! ## Comparison definitions taken from the claim wording

These two definitions follow the words of the respective claims (not the
source); they exist only to be compared with the embedded code. -/

/-- The exclusion rule as claim C1 words it: some ancestor *strictly
between* the candidate (path `p`) and the instance root `R` carries a
template-identifier marker whose value differs from `rootId`, the
identifier of `R`. -/
def claimIntermediateDifferingMarker (R : Node) (rootId : Str) (p : List Nat) : Bool :=
  ((List.range p.length).filter (fun k => k ≠ 0)).any (fun k =>
    match getAt R (p.take k) with
    | some a => (tidChildren a).any (fun t =>
        match attrGet (nodeAttrs t) "root".toList with
        | some v => v ≠ rootId
        | none => false)
    | none => false)

/-- The keep rule of the suffix-recursive fallback as claim C7 words it:
the child's *local* name equals or textually contains the step's local
name, the namespace ignored. -/
def claimRecursiveKeep (cleanPart : Str) (childTag : Str) : Bool :=
  stripNs childTag == cleanPart || strContains (stripNs childTag) cleanPart

/-- The path required by claim C8: namespace-stripped segments of every
node from the document root down to the addressed node. -/
def pathTagsGo : Node → List Nat → List Str
  | n, [] => [stripNs (nodeTag n)]
  | n, i :: p =>
    match (nodeChildren n).get? i with
    | some c => stripNs (nodeTag n) :: pathTagsGo c p
    | none => [stripNs (nodeTag n)]

/-- The full root-to-node path claim C8 requires of `MatchResult.path`. -/
def rootToNodePath (root : Node) (p : List Nat) : Str :=
  '/' :: joinSep ['/'] (pathTagsGo root p)

/-! ## Concrete fixtures -/

def cdaNsUri : Str := "urn:hl7-org:v3".toList

/-- A CDA-namespaced element. -/
def mkCda (tag : String) (attrs : List (String × String)) (children : List Node) : Node :=
  .mk (clark cdaNsUri tag.toList)
    (attrs.map (fun kv => (kv.1.toList, kv.2.toList))) none children

/-- A template-identifier marker child `<templateId root="v"/>`. -/
def tidMarker (v : String) : Node := mkCda "templateId" [("root", v)] []

/-- `<observation><templateId root="X1"/><code code="c"/></observation>`. -/
def obsWithCode (c : String) : Node :=
  mkCda "observation" [] [tidMarker "X1", mkCda "code" [("code", c)] []]

/-- The claim C2 document: two template occurrences with codes A and B. -/
def docC2 : Node := mkCda "ClinicalDocument" [] [obsWithCode "A", obsWithCode "B"]

/-- The claim C2 catalog expression
`observation[templateId[@root='X1']]/code/@code` (quotes assembled from
their character code). -/
def exprC2 : Str :=
  "observation[templateId[@root=".toList ++ [squote] ++ "X1".toList ++ [squote]
    ++ "]]/code/@code".toList

def entC2 : Entry := ⟨exprC2, [], [], [], []⟩

/-- Claim C1 fixture: an instance root carrying identifier X1 with a
child `act` that carries the *same* identifier X1 and holds the candidate
`code` node at path `[1, 1]`. -/
def innerActC1 : Node := mkCda "act" [] [tidMarker "X1", mkCda "code" [("code", "N")] []]

def rootC1 : Node := mkCda "observation" [] [tidMarker "X1", innerActC1]

/-- Claim C6 fixture: the first located occurrence has no `code` child so
its field map stays empty and it is dropped after numbering. -/
def docC6 : Node :=
  mkCda "ClinicalDocument" [] [mkCda "observation" [] [tidMarker "X1"], obsWithCode "B"]

/-- Claim C7 fixture: the child's local name `patient` does not contain
the step name `org`, but its full qualified tag does (inside the
namespace URI `urn:hl7-org:v3`). -/
def patientChild : Node := mkCda "patient" [] []

def rootC7 : Node := .mk "r".toList [] none [patientChild]

/-- Claim C8 fixture: a depth-two match under the document root. -/
def docC8 : Node :=
  mkCda "ClinicalDocument" [] [mkCda "observation" [] [mkCda "code" [("code", "A")] []]]

def entC8 : Entry := ⟨"ClinicalDocument/observation/code".toList, [], [], [], []⟩

/-- A document and an expression that match nothing anywhere. -/
def docMiss : Node := .mk "r".toList [] none [.mk "x".toList [] none []]

def entMiss : Entry := ⟨"foo/bar".toList, [], [], [], []⟩

end CdaFinder

namespace CdaFinder

/-! ## Helper lemmas -/

theorem splitOnCh_no_sep (c : Char) (l : Str) (h : ∀ a ∈ l, a ≠ c) : splitOnCh c l = [l] := by
  induction l with
  | nil => rfl
  | cons x xs ih =>
    have hx : ¬(x = c) := h x (List.mem_cons_self x xs)
    have hxs := ih (fun a ha => h a (List.mem_cons_of_mem x ha))
    simp [splitOnCh, hx, hxs]

theorem strHasCh_false {s : Str} {c : Char} (h : ∀ a ∈ s, a ≠ c) : strHasCh s c = false := by
  simp only [strHasCh, List.any_eq_false, decide_eq_true_eq]
  exact h

theorem tidFullMatchAt_name {s n i r : Str} (h : tidFullMatchAt s = some (n, i, r)) :
    n = s.takeWhile isWordChar ∧ n ≠ [] := by
  unfold tidFullMatchAt at h
  cases he : (List.takeWhile isWordChar s).isEmpty with
  | true => simp [he] at h
  | false =>
    simp only [he, Bool.false_eq_true, if_false] at h
    split at h
    · split at h
      · split at h
        · simp only [Option.some.injEq, Prod.mk.injEq] at h
          exact ⟨h.1.symm, h.1 ▸ List.isEmpty_eq_false.mp he⟩
        · cases h
      · cases h
    · cases h

theorem tidSearch_wordchars :
    ∀ (s : Str) {n i : Str}, tidSearch s = some (n, i) →
      n ≠ [] ∧ ∀ c ∈ n, isWordChar c = true := by
  intro s
  induction s with
  | nil => intro n i h; exact absurd h (by simp [tidSearch])
  | cons x xs ih =>
    intro n i h
    unfold tidSearch at h
    cases hm : tidFullMatchAt (x :: xs) with
    | some t =>
      rw [hm] at h
      obtain ⟨hname, hne⟩ := tidFullMatchAt_name (s := x :: xs) (by rw [hm])
      simp only [Option.some.injEq] at h
      have hn : n = t.1 := (congrArg (fun z => z.1) h).symm
      subst hn
      refine ⟨hne, ?_⟩
      intro c hc
      rw [hname] at hc
      exact List.mem_takeWhile_imp hc
    | none =>
      rw [hm] at h
      exact ih h

theorem wordChar_tail_ne {t : Str} (h2 : ∀ c ∈ t, isWordChar c = true) {c0 : Char}
    (hw : isWordChar c0 = false) : ∀ a ∈ t, a ≠ c0 := by
  intro a ha he
  subst he
  rw [h2 a ha] at hw
  cases hw

theorem consTag_no_ch {t : Str} (h2 : ∀ c ∈ t, isWordChar c = true) (c0 : Char)
    (hw : isWordChar c0 = false) (hc : 'c' ≠ c0) (hd : 'd' ≠ c0) (ha : 'a' ≠ c0)
    (hcol : ':' ≠ c0) : strHasCh ('c' :: 'd' :: 'a' :: ':' :: t) c0 = false := by
  apply strHasCh_false
  intro a hmem
  rcases List.mem_cons.mp hmem with rfl | hmem
  · exact hc
  rcases List.mem_cons.mp hmem with rfl | hmem
  · exact hd
  rcases List.mem_cons.mp hmem with rfl | hmem
  · exact ha
  rcases List.mem_cons.mp hmem with rfl | hmem
  · exact hcol
  · exact wordChar_tail_ne h2 hw a hmem

theorem split_tid_path {t : Str} (h2 : ∀ c ∈ t, isWordChar c = true) :
    splitOnCh '/' (".//cda:".toList ++ t) = [['.'], [], 'c' :: 'd' :: 'a' :: ':' :: t] := by
  have ht : splitOnCh '/' t = [t] :=
    splitOnCh_no_sep '/' t (wordChar_tail_ne h2 (by decide))
  show splitOnCh '/' ('.' :: '/' :: '/' :: 'c' :: 'd' :: 'a' :: ':' :: t) = _
  simp [splitOnCh, ht]

theorem etFindall_tid_ok (root : Node) (t : Str) (h2 : ∀ c ∈ t, isWordChar c = true) :
    etFindall root (".//cda:".toList ++ t) =
      .ok (etStep root true (clark "urn:hl7-org:v3".toList t) [[]]) := by
  have hb1 := consTag_no_ch h2 '[' (by decide) (by decide) (by decide) (by decide) (by decide)
  have hb2 := consTag_no_ch h2 '@' (by decide) (by decide) (by decide) (by decide) (by decide)
  have hb3 := consTag_no_ch h2 '*' (by decide) (by decide) (by decide) (by decide) (by decide)
  have hcol : strHasCh ('c' :: 'd' :: 'a' :: ':' :: t) ':' = true := by
    simp [strHasCh]
  unfold etFindall
  rw [split_tid_path h2]
  simp only [etSteps, List.isEmpty_cons, List.isEmpty_nil, if_true, if_false,
    Bool.false_eq_true]
  simp [etSteps, hb1, hb2, hb3, resolveStepTag, hcol, List.takeWhile_cons, attrGet, nsTable]

theorem convertState_of_tidSearch (st : ConvState) (x : Str) :
    (convertXpathForET st x).2 =
      (match tidSearch x with
       | some ni => ConvState.mk (some ni.2) (some ni.1)
       | none => ConvState.mk none none) := by
  unfold convertXpathForET
  cases h : tidSearch x <;> simp [h]

theorem findElementsWithTemplateid_ok (root : Node) (xpath : Str) (tid ety : Str)
    (h2 : ∀ c ∈ ety, isWordChar c = true) :
    ∃ l, findElementsWithTemplateid ⟨some tid, some ety⟩ root xpath = .ok l := by
  unfold findElementsWithTemplateid
  simp only [Option.getD_some]
  split
  · exact ⟨[], rfl⟩
  · rw [etFindall_tid_ok root ety h2]
    split_ifs <;> exact ⟨_, rfl⟩

theorem findElementsByXPath_no_raise (root : Node) (st : ConvState) (x : Str) :
    ∃ l, findElementsByXPath (convertXpathForET st x).2 root (convertXpathForET st x).1 = .ok l := by
  have hst := convertState_of_tidSearch st x
  unfold findElementsByXPath
  cases hE : etFindall root (convertXpathForET st x).1 with
  | ok l =>
    cases l with
    | cons p ps => exact ⟨_, rfl⟩
    | nil =>
      cases htid : tidSearch x with
      | none =>
        rw [htid] at hst
        rw [hst]
        simp only [hasTemplateidPredicate, Option.isSome_none, Bool.false_eq_true, if_false]
        split_ifs <;> exact ⟨_, rfl⟩
      | some ni =>
        rw [htid] at hst
        rw [hst]
        simp only [hasTemplateidPredicate, Option.isSome_some, if_true]
        exact findElementsWithTemplateid_ok root _ ni.2 ni.1 (tidSearch_wordchars x htid).2
  | error u =>
    cases htid : tidSearch x with
    | none =>
      rw [htid] at hst
      rw [hst]
      simp only [hasTemplateidPredicate, Option.isSome_none, Bool.false_eq_true, if_false]
      split_ifs <;> exact ⟨_, rfl⟩
    | some ni =>
      rw [htid] at hst
      rw [hst]
      simp only [hasTemplateidPredicate, Option.isSome_some, if_true]
      exact findElementsWithTemplateid_ok root _ ni.2 ni.1 (tidSearch_wordchars x htid).2

end CdaFinder

namespace CdaFinder

theorem processEntry_shape (root : Node) (st : ConvState) (e : Entry) :
    1 ≤ (processEntry root st e).1.length ∧
    (processEntry root st e).1.all
      (fun r => if r.found then r.isAttribute.isSome else r.isAttribute.isNone) = true := by
  obtain ⟨l, hl⟩ := findElementsByXPath_no_raise root st e.xpath
  simp only [processEntry]
  rw [hl]
  cases l with
  | nil => simp [notFoundRecord]
  | cons i is =>
    constructor
    · simp
    · rw [List.all_eq_true]
      intro r hr
      rw [List.mem_map] at hr
      obtain ⟨f, _, rfl⟩ := hr
      cases f <;> simp [recordOf]

theorem findElementsAux (root : Node) :
    ∀ (entries : List Entry) (start : List FlatRecord × ConvState),
      start.1.length + entries.length ≤
        ((entries.foldl
          (fun a e => (a.1 ++ (processEntry root a.2 e).1, (processEntry root a.2 e).2))
          start).1).length ∧
      (start.1.all (fun r => if r.found then r.isAttribute.isSome else r.isAttribute.isNone)
          = true →
        ((entries.foldl
          (fun a e => (a.1 ++ (processEntry root a.2 e).1, (processEntry root a.2 e).2))
          start).1).all
          (fun r => if r.found then r.isAttribute.isSome else r.isAttribute.isNone) = true) := by
  intro entries
  induction entries with
  | nil => intro start; simp
  | cons e es ih =>
    intro start
    rw [List.foldl_cons]
    have hp := processEntry_shape root start.2 e
    have hih := ih (start.1 ++ (processEntry root start.2 e).1, (processEntry root start.2 e).2)
    obtain ⟨h1, h2⟩ := hih
    simp only [List.length_append] at h1
    constructor
    · simp only [List.length_cons]
      omega
    · intro hacc
      apply h2
      simp only [List.all_append]
      rw [hacc, hp.2]
      rfl

theorem buildInstancesGo_all (tid : Str) (entries : List Entry) :
    ∀ (ls : List Node) (i : Nat),
      (buildInstancesGo tid entries i ls).all (fun inst => !inst.fields.isEmpty) = true := by
  intro ls
  induction ls with
  | nil => intro i; rfl
  | cons r rest ih =>
    intro i
    by_cases hf : (instanceFields r entries).isEmpty
    · have hb : buildInstancesGo tid entries i (r :: rest) =
          buildInstancesGo tid entries (i + 1) rest := by
        simp [buildInstancesGo, hf]
      rw [hb]
      exact ih (i + 1)
    · have hb : buildInstancesGo tid entries i (r :: rest) =
          ⟨i + 1, tid, instanceFields r entries, entries.map (fun e => e.xpath)⟩ ::
            buildInstancesGo tid entries (i + 1) rest := by
        simp [buildInstancesGo, hf]
      rw [hb, List.all_cons]
      simp only [Bool.and_eq_true]
      exact ⟨by simpa using hf, ih (i + 1)⟩

theorem buildInstancesGo_ordinals (tid : Str) (entries : List Entry) :
    ∀ (ls : List Node) (i : Nat),
      List.Chain' (· < ·) ((buildInstancesGo tid entries i ls).map (fun d => d.instanceNumber)) ∧
      (∀ o ∈ (buildInstancesGo tid entries i ls).map (fun d => d.instanceNumber),
        i + 1 ≤ o ∧ o ≤ i + ls.length) ∧
      (buildInstancesGo tid entries i ls).length ≤ ls.length ∧
      ((buildInstancesGo tid entries i ls).length = ls.length →
        (buildInstancesGo tid entries i ls).map (fun d => d.instanceNumber) =
          (List.range ls.length).map (fun k => i + k + 1)) := by
  intro ls
  induction ls with
  | nil =>
    intro i
    refine ⟨by simp [buildInstancesGo], by simp [buildInstancesGo], by simp [buildInstancesGo],
      fun _ => by simp [buildInstancesGo]⟩
  | cons r rest ih =>
    intro i
    obtain ⟨c1, c2, c3, c4⟩ := ih (i + 1)
    by_cases hf : (instanceFields r entries).isEmpty
    · have hmap : (buildInstancesGo tid entries i (r :: rest)).map (fun d => d.instanceNumber) =
          (buildInstancesGo tid entries (i + 1) rest).map (fun d => d.instanceNumber) := by
        simp [buildInstancesGo, hf]
      have hlen2 : (buildInstancesGo tid entries i (r :: rest)).length =
          (buildInstancesGo tid entries (i + 1) rest).length := by
        simp [buildInstancesGo, hf]
      refine ⟨hmap ▸ c1, ?_, ?_, ?_⟩
      · intro o ho
        rw [hmap] at ho
        have hh := c2 o ho
        simp only [List.length_cons]
        omega
      · rw [hlen2]
        simp only [List.length_cons]
        omega
      · intro hlen
        exfalso
        rw [hlen2] at hlen
        simp only [List.length_cons] at hlen
        omega
    · have hmap : (buildInstancesGo tid entries i (r :: rest)).map (fun d => d.instanceNumber) =
          (i + 1) :: (buildInstancesGo tid entries (i + 1) rest).map (fun d => d.instanceNumber) := by
        simp [buildInstancesGo, hf]
      have hlen2 : (buildInstancesGo tid entries i (r :: rest)).length =
          (buildInstancesGo tid entries (i + 1) rest).length + 1 := by
        simp [buildInstancesGo, hf]
      refine ⟨?_, ?_, ?_, ?_⟩
      · rw [hmap, List.chain'_cons']
        refine ⟨?_, c1⟩
        intro y hy
        have := c2 y (List.mem_of_mem_head? hy)
        omega
      · intro o ho
        rw [hmap, List.mem_cons] at ho
        simp only [List.length_cons]
        rcases ho with rfl | ho
        · omega
        · have := c2 o ho
          omega
      · rw [hlen2]
        simp only [List.length_cons]
        omega
      · intro hlen
        rw [hlen2] at hlen
        simp only [List.length_cons] at hlen
        have h4 := c4 (by omega)
        rw [hmap, h4]
        have hfe : ((fun k => i + k + 1) ∘ Nat.succ) = (fun k => i + 1 + k + 1) :=
          funext (fun k => by simp only [Function.comp]; omega)
        simp only [List.length_cons, List.range_succ_eq_map, List.map_cons, List.map_map, hfe]
        try simp

theorem autoGroupFoldl (root : Node) :
    ∀ (gs : List (Str × List Entry)) (acc : List GroupResult),
      gs.foldl
        (fun a g =>
          let r := findGroupedElements root g.2 g.1
          if r.instances.isEmpty then a else a ++ [r]) acc =
      acc ++ (gs.map (fun g => findGroupedElements root g.2 g.1)).filter
        (fun r => !r.instances.isEmpty) := by
  intro gs
  induction gs with
  | nil => intro acc; simp
  | cons g rest ih =>
    intro acc
    simp only [List.foldl_cons, List.map_cons, List.filter_cons]
    by_cases hg : (findGroupedElements root g.2 g.1).instances.isEmpty
    · simp only [hg, if_true, Bool.not_true, Bool.false_eq_true, if_false]
      exact ih acc
    · simp only [hg, Bool.false_eq_true, if_false, Bool.not_false, if_true]
      rw [ih (acc ++ [findGroupedElements root g.2 g.1])]
      simp

end CdaFinder

namespace CdaFinder

/-! ## Claim theorems -/

/-- Claim C1 (counterexample).  In `rootC1` the only ancestor strictly
between the candidate `code` node (path `[1, 1]`, reachable by the
descendant search `.//cda:code`) and the instance root carries a
template-identifier marker whose value equals the root's own identifier
`X1`; the claim therefore requires inclusion, but the grouped-mode
resolver excludes the node and the field evaluation returns nothing. -/
theorem C1_counterexample :
    claimIntermediateDifferingMarker rootC1 "X1".toList [1, 1] = false ∧
    etFindall rootC1 ".//cda:code".toList = .ok [[1, 1]] ∧
    isNestedTemplateElement rootC1 [1, 1] = true ∧
    findWithinTemplateInstance rootC1 "code/@code".toList = [] ∧
    tagAt rootC1 [1, 1] = some (clark cdaNsUri "code".toList) :=
  ⟨rfl, rfl, rfl, rfl, rfl⟩

/-- Claim C1 (amended).  A candidate found under the template instance
root `R` is excluded by the grouped-mode Scope Boundary Resolver iff it
lies in the subtree of some proper descendant of `R` (possibly the
candidate itself) that carries a direct template-identifier marker child —
the marker's value is never compared with `R`'s identifier.  The
flat-mode resolver `_is_from_nested_template` excludes nothing, because
the parent accessor its walk probes for does not exist on ElementTree
nodes. -/
theorem C1_amended (R : Node) (p : List Nat) :
    (isNestedTemplateElement R p = true ↔
      ∃ q, q ∈ preorderPaths R ∧ q ≠ [] ∧ hasTidChildAt R q = true ∧
        p ∈ subtreeAbsPaths R q) ∧
    (∀ (e r : Node) (t : Str), isFromNestedTemplate e r t = false) := by
  constructor
  · simp only [isNestedTemplateElement, List.any_eq_true, List.mem_filter,
      Bool.and_eq_true, Bool.not_eq_true', List.isEmpty_eq_false, beq_iff_eq]
    constructor
    · rintro ⟨q, ⟨⟨hq1, hq2, hq3⟩, r, hr, rfl⟩⟩
      exact ⟨q, hq1, hq2, hq3, hr⟩
    · rintro ⟨q, hq1, hq2, hq3, hp⟩
      exact ⟨q, ⟨hq1, hq2, hq3⟩, p, hp, rfl⟩
  · intro e r t
    rfl

/-- Claim C2.  On the two-occurrence document, the catalog expression
`observation[templateId[@root=(squote)X1(squote)]]/code/@code` evaluated in
grouped mode yields instance count 2 with ordinals 1 and 2, and each
instance carries the single field key `code/code` holding the attribute
value `A` respectively `B`. -/
theorem C2_grouped_scenario :
    (findGroupedElements docC2 [entC2] "X1".toList).instanceCount = 2 ∧
    (findGroupedElements docC2 [entC2] "X1".toList).instances.map
      (fun d => d.instanceNumber) = [1, 2] ∧
    (findGroupedElements docC2 [entC2] "X1".toList).instances.map
      (fun d => d.fields.map (fun kv => (kv.1, kv.2.map (fun it => it.attributeValue)))) =
      [[("code/code".toList, [some "A".toList])],
       [("code/code".toList, [some "B".toList])]] :=
  ⟨rfl, rfl, rfl⟩

/-- Claim C3.  For every document root and catalog entry, the matching
step applied to the converted expression never raises (the chain always
returns an `.ok` value for converter-produced state), and when it yields
zero matches the per-expression evaluation emits exactly one not-found
record whose `original_xpath` is the input expression string byte for
byte. -/
theorem C3_notfound_total (root : Node) (st : ConvState) (e : Entry) :
    (∃ l, findElementsByXPath (convertXpathForET st e.xpath).2 root
        (convertXpathForET st e.xpath).1 = .ok l) ∧
    (findElementsByXPath (convertXpathForET st e.xpath).2 root
        (convertXpathForET st e.xpath).1 = .ok [] →
      (processEntry root st e).1 = [notFoundRecord e (convertXpathForET st e.xpath).1] ∧
      (notFoundRecord e (convertXpathForET st e.xpath).1).originalXpath = e.xpath ∧
      (notFoundRecord e (convertXpathForET st e.xpath).1).found = false) := by
  refine ⟨findElementsByXPath_no_raise root st e.xpath, fun h => ⟨?_, rfl, rfl⟩⟩
  simp only [processEntry]
  rw [h]

/-- Claim C3 (witness): the theorem applied to the concrete no-match
document and expression, the zero-match hypothesis discharged by
evaluation. -/
theorem C3_witness :
    (∃ l, findElementsByXPath (convertXpathForET ⟨none, none⟩ entMiss.xpath).2 docMiss
        (convertXpathForET ⟨none, none⟩ entMiss.xpath).1 = .ok l) ∧
    (processEntry docMiss ⟨none, none⟩ entMiss).1 =
      [notFoundRecord entMiss (convertXpathForET ⟨none, none⟩ entMiss.xpath).1] := by
  have h := C3_notfound_total docMiss ⟨none, none⟩ entMiss
  exact ⟨h.1, (h.2 rfl).1⟩

/-- Claim C4 (counterexample).  A record for an expression that matches
nothing carries `found = false` but no `is_attribute` key at all
(modelled as `none`), so "every returned record contains both a boolean
found field and a boolean isAttribute field" fails. -/
theorem C4_counterexample :
    (findElements docMiss [entMiss]).map (fun r => (r.found, r.isAttribute)) =
      [(false, none)] := rfl

/-- Claim C4 (amended).  Flat-mode evaluation returns at least one record
per input expression, and every returned record carries the boolean
`found`; records of found matches also carry a boolean `is_attribute`,
while not-found records omit that key. -/
theorem C4_amended (root : Node) (entries : List Entry) :
    entries.length ≤ (findElements root entries).length ∧
    (findElements root entries).all
      (fun r => if r.found then r.isAttribute.isSome else r.isAttribute.isNone) = true := by
  have h := findElementsAux root entries ([], ⟨none, none⟩)
  constructor
  · have h1 := h.1
    simpa [findElements] using h1
  · have h2 := h.2 rfl
    simpa [findElements] using h2

/-- Claim C5.  The converter is deterministic and retains no state that
can leak between conversions: its normalized output and its extracted
template predicate (the assigned instance state, as read back by
`_has_templateid_predicate`) are functions of the input expression alone,
unaffected by any previously stored state, and re-converting the same
expression reproduces the identical result. -/
theorem C5_converter_pure (s1 s2 : ConvState) (x : Str) :
    convertXpathForET s1 x = convertXpathForET s2 x ∧
    convertXpathForET (convertXpathForET s1 x).2 x = convertXpathForET s1 x ∧
    hasTemplateidPredicate (convertXpathForET s1 x).2 x =
      hasTemplateidPredicate (convertXpathForET s2 x).2 x :=
  ⟨rfl, rfl, rfl⟩

/-- Claim C6 (counterexample).  The document has two located occurrences
of `X1` (so the claim demands exposed ordinals `[1, 2]`), but the first
occurrence matches no field, is dropped after numbering, and the grouped
output exposes only the ordinal `2`. -/
theorem C6_counterexample :
    (findTemplateInstances docC6 "X1".toList).length = 2 ∧
    (findGroupedElements docC6 [entC2] "X1".toList).instances.map
      (fun d => d.instanceNumber) = [2] ∧
    ([2] : List Nat) ≠ [1, 2] :=
  ⟨rfl, rfl, by decide⟩

/-- Claim C6 (amended).  The locator returns a sublist of the pre-order
traversal (document order) and the empty list when the identifier is
absent; ordinals are assigned 1..N over the located occurrences in that
order, and grouped output exposes a strictly increasing subsequence of
1..N — equal to the whole of 1..N exactly when no occurrence was dropped
for having an empty field map. -/
theorem C6_amended (root : Node) (entries : List Entry) (tid : Str) :
    (findTemplateInstances root tid).Sublist (iterNodes root) ∧
    ((∀ e ∈ iterNodes root,
        ((tidChildren e).any
          (fun t => attrGet (nodeAttrs t) "root".toList == some tid)) = false) →
      findTemplateInstances root tid = []) ∧
    List.Chain' (· < ·)
      ((findGroupedElements root entries tid).instances.map (fun d => d.instanceNumber)) ∧
    (∀ o ∈ (findGroupedElements root entries tid).instances.map (fun d => d.instanceNumber),
      1 ≤ o ∧ o ≤ (if !tid.isEmpty && tid ≠ "ungrouped".toList
                   then findTemplateInstances root tid else []).length) ∧
    ((findGroupedElements root entries tid).instances.length =
        (if !tid.isEmpty && tid ≠ "ungrouped".toList
         then findTemplateInstances root tid else []).length →
      (findGroupedElements root entries tid).instances.map (fun d => d.instanceNumber) =
        (List.range (if !tid.isEmpty && tid ≠ "ungrouped".toList
          then findTemplateInstances root tid else []).length).map (fun k => k + 1)) := by
  have hinst : (findGroupedElements root entries tid).instances =
      buildInstancesGo tid entries 0
        (if !tid.isEmpty && tid ≠ "ungrouped".toList then findTemplateInstances root tid
         else []) := rfl
  obtain ⟨c1, c2, _, c4⟩ := buildInstancesGo_ordinals tid entries
    (if !tid.isEmpty && tid ≠ "ungrouped".toList then findTemplateInstances root tid else []) 0
  refine ⟨List.filter_sublist _, ?_, ?_, ?_, ?_⟩
  · intro habs
    apply List.filter_eq_nil_iff.mpr
    intro a ha hcontra
    rw [habs a ha] at hcontra
    cases hcontra
  · rw [hinst]
    exact c1
  · rw [hinst]
    intro o ho
    have := c2 o ho
    omega
  · rw [hinst]
    intro hlen
    have h4 := c4 hlen
    rw [h4]
    apply List.map_congr_left
    intro k _
    omega

/-- Claim C6 (witness): the theorem applied to a document without the
identifier — the absence hypothesis and the no-drop hypothesis are both
discharged there. -/
theorem C6_amended_witness :
    findTemplateInstances docMiss "X1".toList = [] ∧
    (findGroupedElements docMiss [entC2] "X1".toList).instances.map
      (fun d => d.instanceNumber) =
      (List.range (if !("X1".toList).isEmpty && "X1".toList ≠ "ungrouped".toList
        then findTemplateInstances docMiss "X1".toList else []).length).map
        (fun k => k + 1) := by
  have h := C6_amended docMiss [entC2] "X1".toList
  exact ⟨h.2.1 (by decide), h.2.2.2.2 rfl⟩

/-- Claim C7 (counterexample).  For the step `org` the structural find
yields nothing and the suffix-recursive fallback keeps the child tagged
`(lbrace)urn:hl7-org:v3(rbrace)patient`, because the step text occurs
inside the namespace URI — although the child's local name `patient`
neither equals nor contains `org`, so the claim's namespace-ignoring rule
would keep nothing. -/
theorem C7_counterexample :
    claimRecursiveKeep "org".toList (nodeTag patientChild) = false ∧
    recKeep (firstSeg '[' (lastSeg ':' "org".toList)) (nodeTag patientChild) = true ∧
    etFindall rootC7 "org".toList = .ok [] ∧
    findElementsByXPath ⟨none, none⟩ rootC7 "org".toList = .ok [Found.elem patientChild] ∧
    stripNs (nodeTag patientChild) = "patient".toList :=
  ⟨rfl, rfl, rfl, rfl, rfl⟩

/-- Claim C7 (amended).  With no stored template predicate the matcher
returns the structural matches when there are any; otherwise, when the
path mentions an attribute, it returns the attribute-split result as is —
even when that is empty, with no further fallback; only attribute-free
paths reach the suffix-recursive fallback, whose keep test compares the
step's stripped name against the *full* qualified tag (suffix or
substring, the namespace text included). -/
theorem C7_amended (ety : Option Str) (root : Node) (xpath : Str) :
    (findElementsByXPath ⟨none, ety⟩ root xpath =
      match etFindall root xpath with
      | .ok (p :: ps) => .ok (((p :: ps).filterMap (getAt root)).map Found.elem)
      | _ =>
        if "/@value".toList.isSuffixOf xpath || strHasCh xpath '@' then
          .ok (findElementsWithAttributes root xpath)
        else .ok ((findElementsRecursive root xpath).map Found.elem)) ∧
    (strHasCh xpath '@' = true → findElementsWithAttributes root xpath = [] →
      (∀ (p : List Nat) (ps : List (List Nat)), etFindall root xpath ≠ .ok (p :: ps)) →
      findElementsByXPath ⟨none, ety⟩ root xpath = .ok []) ∧
    (∀ (step : Str) (r2 : Node), step ≠ [] → (∀ c ∈ step, c ≠ '/') →
      findElementsRecursive r2 step =
        (nodeChildren r2).filter
          (fun c => recKeep (firstSeg '[' (lastSeg ':' step)) (nodeTag c))) := by
  refine ⟨?_, ?_, ?_⟩
  · unfold findElementsByXPath
    cases hE : etFindall root xpath with
    | ok l =>
      cases l with
      | nil => simp [hasTemplateidPredicate]
      | cons p ps => rfl
    | error u => simp [hasTemplateidPredicate]
  · intro hat hempty hnc
    unfold findElementsByXPath
    cases hE : etFindall root xpath with
    | ok l =>
      cases l with
      | nil => simp [hasTemplateidPredicate, hat, hempty]
      | cons p ps => exact absurd hE (hnc p ps)
    | error u => simp [hasTemplateidPredicate, hat, hempty]
  · intro step r2 hne hns
    unfold findElementsRecursive
    rw [splitOnCh_no_sep '/' step hns]
    unfold recGo
    rw [if_neg (by simpa [List.isEmpty_iff] using hne)]
    simp only [List.flatMap_cons, List.flatMap_nil, List.append_nil]
    split <;> rfl

/-- Claim C7 (witness): the theorem applied to the concrete root — the
attribute path `zz/@a` exercises the empty attribute-split (no recursive
fallback), and the inner quantifier is instantiated at the step `org`. -/
theorem C7_amended_witness :
    findElementsByXPath ⟨none, none⟩ rootC7 "zz/@a".toList = .ok [] ∧
    findElementsRecursive rootC7 "org".toList =
      (nodeChildren rootC7).filter
        (fun c => recKeep (firstSeg '[' (lastSeg ':' "org".toList)) (nodeTag c)) := by
  have h := C7_amended none rootC7 "zz/@a".toList
  refine ⟨h.2.1 rfl rfl ?_, h.2.2 "org".toList rootC7 (by decide) (by decide)⟩
  intro p ps hc
  rw [show etFindall rootC7 "zz/@a".toList = Except.error () from rfl] at hc
  cases hc

/-- Claim C8.  `_get_element_path` is written as an ancestor walk, but the
`getparent` accessor it probes for does not exist on ElementTree nodes, so
the emitted path is always just a slash plus the node's own
namespace-stripped tag: for the depth-two match in `docC8` the flat-mode
record says `/code` where the root-to-node path the claim requires is
`/ClinicalDocument/observation/code`. -/
theorem C8_path_bug :
    (findElements docC8 [entC8]).map (fun r => r.elementPath) = [some "/code".toList] ∧
    rootToNodePath docC8 [0, 0] = "/ClinicalDocument/observation/code".toList ∧
    ("/code".toList : Str) ≠ "/ClinicalDocument/observation/code".toList ∧
    (∀ e : Node, getElementPath e = '/' :: stripNs (nodeTag e)) :=
  ⟨rfl, rfl, by decide, fun _ => rfl⟩

/-- Claim C9.  In every grouped result, every reported instance has a
non-empty field map (occurrences whose fields stayed empty were dropped),
and `instance_count` equals the length of the post-drop instance list. -/
theorem C9_dropped_empty (root : Node) (entries : List Entry) (tid : Str) :
    (findGroupedElements root entries tid).instances.all
      (fun inst => !inst.fields.isEmpty) = true ∧
    (findGroupedElements root entries tid).instanceCount =
      (findGroupedElements root entries tid).instances.length :=
  ⟨buildInstancesGo_all tid entries _ 0, rfl⟩

/-- Claim C10.  Auto-grouped output is exactly the per-identifier group
results filtered to those with at least one surviving instance: a
template identifier whose occurrences all end up with empty field maps
(or which has none) contributes no group record, and no emitted group has
instance count zero. -/
theorem C10_dropped_groups (root : Node) (entries : List Entry) :
    findElementsWithAutoGrouping root entries =
      ((autoGroupXpathEntries entries).map
        (fun g => findGroupedElements root g.2 g.1)).filter
        (fun r => !r.instances.isEmpty) ∧
    (findElementsWithAutoGrouping root entries).all
      (fun g => !g.instances.isEmpty) = true ∧
    (findElementsWithAutoGrouping root entries).all
      (fun g => g.instanceCount != 0) = true := by
  have hfold := autoGroupFoldl root (autoGroupXpathEntries entries) []
  have heq : findElementsWithAutoGrouping root entries =
      ((autoGroupXpathEntries entries).map
        (fun g => findGroupedElements root g.2 g.1)).filter
        (fun r => !r.instances.isEmpty) := by
    unfold findElementsWithAutoGrouping
    rw [hfold]
    simp
  refine ⟨heq, ?_, ?_⟩
  · rw [heq, List.all_eq_true]
    intro g hg
    exact (List.mem_filter.mp hg).2
  · rw [heq, List.all_eq_true]
    intro g hg
    obtain ⟨hmem, hne⟩ := List.mem_filter.mp hg
    rw [List.mem_map] at hmem
    obtain ⟨a, _, rfl⟩ := hmem
    have hcount : (findGroupedElements root a.2 a.1).instanceCount =
        (findGroupedElements root a.2 a.1).instances.length := rfl
    rw [bne_iff_ne, hcount]
    intro hzero
    rw [List.length_eq_zero] at hzero
    rw [hzero] at hne
    cases hne

end CdaFinder
